import Mathlib

/-!
# Verification of `termfields.go`

A shallow embedding of the `termfields` Go library, which draws updateable
text fields at fixed locations in a terminal via the termbox backend.

Modelling choices:
* Go `int` is modelled as `Int` (no operation here can overflow 64 bits in
  a way a claim depends on; coordinates are plain additions by small
  constants on caller-supplied values).
* The termbox backend is modelled by its initialization flag (`init : Bool`,
  mirroring `tb.IsInit`, constant during one operation) and by the trace of
  `SetCell` writes an operation emits, in order. Colors are always
  `ColorDefault` in the source and so are omitted. `Flush` carries no
  information relevant to the claims and is omitted from the trace.
* Go strings are modelled as `List Char` (the runes). Go's `range` over a
  string yields the *byte* index of each rune, which is modelled with
  `Char.utf8Size` (identical to Go's UTF-8 encoding for valid scalars).
* `fmt.Sprintf("%*s", n, " ")` produces `max |n| 1` spaces (width `n`,
  negative width means left-justification, argument is a single space).
-/

namespace Termfields

/-- One `tb.SetCell(x, y, ch, ColorDefault, ColorDefault)` call. -/
abbrev Write := Int × Int × Char

/-- The six border glyphs of one box style: the entries `[0]`..`[5]` of the
`[]rune` values stored in `boxRunesMap` (top-left, top-right, bottom-left,
bottom-right corner, horizontal edge, vertical edge). -/
structure BoxRunes where
  r0 : Char
  r1 : Char
  r2 : Char
  r3 : Char
  r4 : Char
  r5 : Char
deriving DecidableEq

/-- Constant `boxStyleClear boxStyle = iota` (value 0, unexported/internal). -/
def boxStyleClear : Nat := 0

/-- Constant `BoxStyleNone` (value 1). -/
def BoxStyleNone : Nat := 1

/-- Constant `BoxStyleASCII` (value 2). -/
def BoxStyleASCII : Nat := 2

/-- Constant `BoxStyleUnicode` (value 3). -/
def BoxStyleUnicode : Nat := 3

/-- Constant `FieldShiftLeft shiftDir = iota` (value 0). -/
def FieldShiftLeft : Nat := 0

/-- Constant `FieldShiftRight` (value 1). -/
def FieldShiftRight : Nat := 1

/-- Constant `FieldShiftUp` (value 2). -/
def FieldShiftUp : Nat := 2

/-- Constant `FieldShiftDown` (value 3). -/
def FieldShiftDown : Nat := 3

/-- The `boxRunesMap` map populated in `init()`: a lookup from style value
to the six glyphs, `none` for any key not in the map. -/
def boxRunesMap (b : Nat) : Option BoxRunes :=
  if b = boxStyleClear then some ⟨' ', ' ', ' ', ' ', ' ', ' '⟩
  else if b = BoxStyleNone then
    some ⟨Char.ofNat 0, Char.ofNat 0, Char.ofNat 0, Char.ofNat 0, Char.ofNat 0, Char.ofNat 0⟩
  else if b = BoxStyleASCII then some ⟨'+', '+', '+', '+', '-', '|'⟩
  else if b = BoxStyleUnicode then
    some ⟨Char.ofNat 0x250c, Char.ofNat 0x2510, Char.ofNat 0x2514,
          Char.ofNat 0x2518, Char.ofNat 0x2500, Char.ofNat 0x2502⟩
  else none

/-- The `field` struct: position `x, y`, content width `len`, current
border style and last stored text. -/
structure Field where
  x : Int
  y : Int
  len : Int
  border : Nat
  text : List Char
deriving DecidableEq

/-- Method `Row()` returns the row of a field. -/
def Field.Row (f : Field) : Int := f.y

/-- Method `Column()` returns the column of a field. -/
def Field.Column (f : Field) : Int := f.x

/-- The cells written by `Update`'s loop `for i, c := range s`: each rune is
written at `x + i` where `i` is its UTF-8 *byte* offset in the string. -/
def updateWrites (x y : Int) : List Char → List Write
  | [] => []
  | c :: cs => (x, y, c) :: updateWrites (x + (c.utf8Size : Int)) y cs

/-- Method `field.Update(s)`: fails when termbox is not initialized, otherwise
writes the runes of `s` and stores `s` as the field's text.
Returns (result, updated field, emitted cell writes). -/
def update (init : Bool) (f : Field) (s : List Char) :
    Except String Unit × Field × List Write :=
  if !init then (Except.error "Term not Initialized", f, [])
  else (Except.ok (), { f with text := s }, updateWrites f.x f.y s)

/-- The cells written by `field.DrawBox` for glyphs `r`: four corners, two
vertical sides, then the top/bottom sweep `for i := 0; i < f.len+1; i++`. -/
def drawBoxWrites (x y len : Int) (r : BoxRunes) : List Write :=
  [(x - 1, y - 1, r.r0), (x + len + 1, y - 1, r.r1),
   (x - 1, y + 1, r.r2), (x + len + 1, y + 1, r.r3),
   (x - 1, y, r.r5), (x + len + 1, y, r.r5)]
  ++ (List.range (len + 1).toNat).flatMap
      (fun i => [(x + (i : Int), y - 1, r.r4), (x + (i : Int), y + 1, r.r4)])

/-- Method `field.DrawBox(boxType)`: fails when termbox is not initialized or the
style is not a key of `boxRunesMap`; otherwise draws the border and stores
the style. -/
def drawBox (init : Bool) (f : Field) (boxType : Nat) :
    Except String Unit × Field × List Write :=
  if !init then (Except.error "Term not Initialized", f, [])
  else
    match boxRunesMap boxType with
    | none => (Except.error "Unknown Box Style", f, [])
    | some r => (Except.ok (), { f with border := boxType }, drawBoxWrites f.x f.y f.len r)

/-- Go's `fmt.Sprintf("%*s", len, " ")`: a run of `max |len| 1` spaces. -/
def blankString (len : Int) : List Char := List.replicate (max len.natAbs 1) ' '

/-- Method `field.Loc(y, x)`: blank the content, erase the border, move, redraw the
border, rewrite `f.text` (reading `f.text` *after* the blanking `Update`
already stored the blank string). Returns (updated field, writes). -/
def loc (init : Bool) (f : Field) (y x : Int) : Field × List Write :=
  let border := f.border
  let u1 := update init f (blankString f.len)
  let d1 := drawBox init u1.2.1 boxStyleClear
  let f3 : Field := { d1.2.1 with x := x, y := y }
  let d2 := drawBox init f3 border
  let u2 := update init d2.2.1 d2.2.1.text
  (u2.2.1, u1.2.2 ++ d1.2.2 ++ d2.2.2 ++ u2.2.2)

/-- Method `field.Shift(dir)`: erase the border, adjust `x`/`y` by the direction
(no case matches an out-of-range direction), redraw the border, rewrite the
stored text. Returns (updated field, writes). -/
def shift (init : Bool) (f : Field) (dir : Nat) : Field × List Write :=
  let border := f.border
  let d1 := drawBox init f boxStyleClear
  let f1 := d1.2.1
  let f2 : Field :=
    if dir = FieldShiftLeft then { f1 with x := f1.x - 1 }
    else if dir = FieldShiftRight then { f1 with x := f1.x + 1 }
    else if dir = FieldShiftUp then { f1 with y := f1.y - 1 }
    else if dir = FieldShiftDown then { f1 with y := f1.y + 1 }
    else f1
  let d2 := drawBox init f2 border
  let u := update init d2.2.1 d2.2.1.text
  (u.2.1, d1.2.2 ++ d2.2.2 ++ u.2.2)

/-- Function `NewField(y, x, len, text)`: builds the struct (Go zero values: `border`
is 0 = `boxStyleClear`, `text` empty), performs the initial `Update`, and
fails with `Update`'s error when that fails. -/
def newField (init : Bool) (y x len : Int) (text : List Char) :
    Except String Field × List Write :=
  let f0 : Field := { x := x, y := y, len := len, border := 0, text := [] }
  match update init f0 text with
  | (Except.error e, _, w) => (Except.error e, w)
  | (Except.ok _, f1, w) => (Except.ok f1, w)

/-- UTF-8 byte offset of the `k`-th rune of `s` (sum of the sizes of the
runes before it), as produced by Go's `range` over a string. -/
def byteOffset (s : List Char) (k : Nat) : Nat :=
  ((s.take k).map Char.utf8Size).sum

/-- Claim C5: `Update(newText)` fails with the "not initialized" error and leaves
the stored text unchanged when the backend is not initialized; on success it
stores `newText` as the field's current text. -/
theorem update_spec (f : Field) (s : List Char) :
    (update false f s).1 = Except.error "Term not Initialized"
    ∧ (update false f s).2.1 = f
    ∧ (update true f s).1 = Except.ok ()
    ∧ (update true f s).2.1.text = s :=
  ⟨rfl, rfl, rfl, rfl⟩

/-- Claim C9: `NewField` validates nothing: with the backend initialized it
returns, for any row, column, width (zero and negative included) and text, a
field storing exactly those values, never an error. -/
theorem newField_no_validation (y x len : Int) (s : List Char) :
    newField true y x len s
      = (Except.ok { x := x, y := y, len := len, border := boxStyleClear, text := s },
         updateWrites x y s) := rfl

/-- Claim C1 (evaluation at the failing input): `Loc` on an initialized backend
does NOT preserve the stored text — the blanking `Update` overwrites
`f.text` with spaces before the final `f.Update(f.text)`, so the field ends
holding (and displaying) the blank string instead of "hello". -/
theorem loc_clobbers_text :
    ((loc true { x := 10, y := 5, len := 5, border := BoxStyleASCII,
                 text := ['h', 'e', 'l', 'l', 'o'] } 6 11).1).text
      = [' ', ' ', ' ', ' ', ' ']
    ∧ ([' ', ' ', ' ', ' ', ' '] : List Char) ≠ ['h', 'e', 'l', 'l', 'o'] := by
  decide

/-- Claim C2 (counterexample): `NewField(5, 10, 8, "hello")` on an initialized
backend completes successfully, yet the field's stored border style is the
internal `boxStyleClear` (Go's zero value for the `border` struct field). -/
theorem newField_clear_border :
    ((newField true 5 10 8 ['h', 'e', 'l', 'l', 'o']).1.toOption.map Field.border)
      = some boxStyleClear := rfl

/-- Claim C3 (counterexample): `Loc(7, 9)` invoked with the backend NOT
initialized still moves the field — the stored row becomes 7 although it
was 5 before the call (and `Loc` has no error return at all). -/
theorem loc_uninit_moves :
    ((loc false { x := 3, y := 5, len := 4, border := BoxStyleASCII,
                  text := ['h', 'i'] } 7 9).1).y = 7
    ∧ (7 : Int) ≠ 5 := by decide

/-- Claim C4 (counterexample): `Update` indexes cells by UTF-8 *byte* offset, not
rune index: updating a field at the origin with "éa" (é = U+00E9, 2 bytes)
writes 'a' at column 2, so the writes differ from the one-rune-per-
successive-cell list claimed (which would put 'a' at column 1). -/
theorem update_byte_offset_cex :
    (update true { x := 0, y := 0, len := 5, border := BoxStyleNone, text := [] }
        [Char.ofNat 233, 'a']).2.2
      ≠ [((0 : Int), (0 : Int), Char.ofNat 233), ((1 : Int), (0 : Int), 'a')] := by
  decide

/-- Claim C6: `DrawBox` on an initialized backend with a style that is not a key
of `boxRunesMap` returns the "Unknown Box Style" error, writes no cells and
leaves the field (in particular its stored border style) unchanged. -/
theorem drawBox_unknown_style (f : Field) (b : Nat) (h : boxRunesMap b = none) :
    (drawBox true f b).1 = Except.error "Unknown Box Style"
    ∧ (drawBox true f b).2.1 = f
    ∧ (drawBox true f b).2.2 = [] := by
  simp [drawBox, h]

/-- Witness for C6 at style value 4 (the first value outside the four
recognized styles). -/
theorem drawBox_unknown_style_witness :
    (drawBox true { x := 2, y := 3, len := 4, border := BoxStyleASCII,
                    text := ['h', 'i'] } 4).1
      = Except.error "Unknown Box Style"
    ∧ (drawBox true { x := 2, y := 3, len := 4, border := BoxStyleASCII,
                      text := ['h', 'i'] } 4).2.1
      = { x := 2, y := 3, len := 4, border := BoxStyleASCII, text := ['h', 'i'] }
    ∧ (drawBox true { x := 2, y := 3, len := 4, border := BoxStyleASCII,
                      text := ['h', 'i'] } 4).2.2 = [] :=
  drawBox_unknown_style _ 4 rfl

/-- Claim C3 (amended): with the backend not initialized, `Update` and `DrawBox`
return the NotInitialized error and leave the field fully unchanged (no
cells written); `Loc` and `Shift` have no error return, leave text, width
and border style unchanged and write no cells, but DO update the position:
`Loc` installs the new coordinates and `Shift` adjusts them by one cell. -/
theorem uninit_ops (f : Field) (s : List Char) (b : Nat) (y x : Int) :
    (update false f s).1 = Except.error "Term not Initialized"
    ∧ (update false f s).2.1 = f
    ∧ (update false f s).2.2 = []
    ∧ (drawBox false f b).1 = Except.error "Term not Initialized"
    ∧ (drawBox false f b).2.1 = f
    ∧ (drawBox false f b).2.2 = []
    ∧ (loc false f y x).1 = { f with x := x, y := y }
    ∧ (loc false f y x).2 = []
    ∧ (shift false f FieldShiftLeft).1 = { f with x := f.x - 1 }
    ∧ (shift false f FieldShiftRight).1 = { f with x := f.x + 1 }
    ∧ (shift false f FieldShiftUp).1 = { f with y := f.y - 1 }
    ∧ (shift false f FieldShiftDown).1 = { f with y := f.y + 1 }
    ∧ (shift false f FieldShiftLeft).2 = [] :=
  ⟨rfl, rfl, rfl, rfl, rfl, rfl, rfl, rfl, rfl, rfl, rfl, rfl, rfl⟩

/-- The write list of `updateWrites` has one entry per rune, and the `k`-th
entry puts the `k`-th rune at `x` plus its UTF-8 byte offset. -/
theorem updateWrites_getElem (x y : Int) (s : List Char) (k : Nat) (c : Char)
    (h : s[k]? = some c) :
    (updateWrites x y s)[k]? = some (x + (byteOffset s k : Int), y, c) := by
  induction s generalizing x k with
  | nil => simp at h
  | cons d ds ih =>
    cases k with
    | zero =>
      simp only [List.getElem?_cons_zero, Option.some.injEq] at h
      subst h
      simp [updateWrites, byteOffset]
    | succ k =>
      simp only [List.getElem?_cons_succ] at h
      have hih := ih (x + (d.utf8Size : Int)) k h
      simp only [updateWrites, List.getElem?_cons_succ, hih, byteOffset,
        List.take_succ_cons, List.map_cons, List.sum_cons, Option.some.injEq,
        Prod.mk.injEq, and_true]
      push_cast
      ring

/-- Claim C4 (amended): with the backend initialized, `Update(newText)` writes the
`k`-th rune of `newText` to cell `(column + byteOffset, row)` where
`byteOffset` is the sum of the UTF-8 byte sizes of the preceding runes (Go's
`range` yields byte indices); for pure-ASCII text every size is 1 and this
coincides with one rune per successive cell. -/
theorem update_rune_positions (f : Field) (s : List Char) (k : Nat) (c : Char)
    (h : s[k]? = some c) :
    ((update true f s).2.2)[k]? = some (f.x + (byteOffset s k : Int), f.y, c) :=
  updateWrites_getElem f.x f.y s k c h

/-- Witness for C4's amended theorem on the string "éa": the rune 'a' (index
1) is written at column 0 + 2 (the byte offset of 'a' after the two-byte
'é'). -/
theorem update_rune_positions_witness :
    ((update true { x := 0, y := 0, len := 5, border := BoxStyleNone, text := [] }
        [Char.ofNat 233, 'a']).2.2)[1]?
      = some ((2 : Int), (0 : Int), 'a') := by
  have h := update_rune_positions
    { x := 0, y := 0, len := 5, border := BoxStyleNone, text := [] }
    [Char.ofNat 233, 'a'] 1 'a' rfl
  simpa [byteOffset] using h

/-- The glyphs the internal `boxStyleClear` style maps to: six spaces. -/
theorem boxRunesMap_clear :
    boxRunesMap boxStyleClear = some ⟨' ', ' ', ' ', ' ', ' ', ' '⟩ := rfl

/-- State left by `Shift` on an initialized backend, for any direction,
provided the field's current border style is recognized: the position is
adjusted by the matching case (unchanged for an out-of-range direction) and
border style and text survive the erase/redraw/rewrite round trip. -/
theorem shift_state (f : Field) (dir : Nat) (r : BoxRunes)
    (hr : boxRunesMap f.border = some r) :
    (shift true f dir).1 =
      (if dir = FieldShiftLeft then { f with x := f.x - 1 }
       else if dir = FieldShiftRight then { f with x := f.x + 1 }
       else if dir = FieldShiftUp then { f with y := f.y - 1 }
       else if dir = FieldShiftDown then { f with y := f.y + 1 }
       else f) := by
  obtain ⟨fx, fy, flen, fb, ft⟩ := f
  simp only [] at hr
  by_cases h0 : dir = FieldShiftLeft
  · simp [shift, update, drawBox, boxRunesMap_clear, hr, h0,
      FieldShiftLeft, FieldShiftRight, FieldShiftUp, FieldShiftDown]
  by_cases h1 : dir = FieldShiftRight
  · simp [shift, update, drawBox, boxRunesMap_clear, hr, h0, h1,
      FieldShiftLeft, FieldShiftRight, FieldShiftUp, FieldShiftDown]
  by_cases h2 : dir = FieldShiftUp
  · simp [shift, update, drawBox, boxRunesMap_clear, hr, h0, h1, h2,
      FieldShiftLeft, FieldShiftRight, FieldShiftUp, FieldShiftDown]
  by_cases h3 : dir = FieldShiftDown
  · simp [shift, update, drawBox, boxRunesMap_clear, hr, h0, h1, h2, h3,
      FieldShiftLeft, FieldShiftRight, FieldShiftUp, FieldShiftDown]
  · simp [shift, update, drawBox, boxRunesMap_clear, hr, h0, h1, h2, h3]

/-- State left by `Loc` on an initialized backend, provided the field's
current border style is recognized: the new coordinates are installed and
the border style survives, but the stored text ends up being the blanking
string, not the original text. -/
theorem loc_state (f : Field) (y x : Int) (r : BoxRunes)
    (hr : boxRunesMap f.border = some r) :
    (loc true f y x).1 = { f with x := x, y := y, text := blankString f.len } := by
  simp only [loc, update, drawBox, boxRunesMap_clear, Bool.not_true,
    Bool.false_eq_true, if_false]
  simp_all

/-- Claim C2 (amended): no public operation ever *changes* the stored border style
to the internal `Clear` style — `Loc`, `Shift` and `Update` leave it equal
to its pre-call value (for any initialization state, given the current style
is one of the four recognized values) and a successful `DrawBox` stores
exactly the requested style — but `NewField` initializes the border style to
the internal `Clear` (zero) value, so a fresh field does hold `Clear`. -/
theorem border_after_public_ops (init : Bool) (f : Field) (y x : Int) (dir b : Nat)
    (s : List Char) (g : Field) (hb : (boxRunesMap f.border).isSome) :
    (loc init f y x).1.border = f.border
    ∧ (shift init f dir).1.border = f.border
    ∧ (update init f s).2.1.border = f.border
    ∧ ((drawBox init f b).1 = Except.ok () → (drawBox init f b).2.1.border = b)
    ∧ ((newField init y x f.len s).1 = Except.ok g → g.border = boxStyleClear) := by
  obtain ⟨r, hr⟩ := Option.isSome_iff_exists.mp hb
  cases init with
  | false =>
    refine ⟨rfl, ?_, rfl, ?_, ?_⟩
    · simp only [shift, update, drawBox, Bool.not_false, if_true]
      repeat' split
      all_goals rfl
    · intro h; simp [drawBox] at h
    · intro h; simp [newField, update] at h
  | true =>
    refine ⟨?_, ?_, rfl, ?_, ?_⟩
    · rw [loc_state f y x r hr]
    · rw [shift_state f dir r hr]
      repeat' split
      all_goals rfl
    · intro h
      simp only [drawBox, Bool.not_true, Bool.false_eq_true, if_false] at h ⊢
      cases hmb : boxRunesMap b with
      | none => rw [hmb] at h; simp at h
      | some rb => rfl
    · intro h
      simp only [newField, update, Bool.not_true, Bool.false_eq_true, if_false,
        Except.ok.injEq] at h
      rw [← h]
      rfl

/-- Witness for C2's amended theorem at a concrete field with an ASCII
border. -/
theorem border_after_public_ops_witness :
    (loc true { x := 0, y := 0, len := 2, border := BoxStyleASCII,
                text := ['h', 'i'] } 1 2).1.border = BoxStyleASCII :=
  (border_after_public_ops true
    { x := 0, y := 0, len := 2, border := BoxStyleASCII, text := ['h', 'i'] }
    1 2 0 3 ['a']
    { x := 0, y := 0, len := 2, border := BoxStyleASCII, text := ['h', 'i'] }
    (by decide)).1

/-- Claim C8: on an initialized backend (and with the field's border style one of
the recognized values), `Shift(Left)` then `Shift(Right)` restores the field
exactly — original column, row, border style and text — and so does
`Shift(Up)` then `Shift(Down)`. -/
theorem shift_roundtrip (f : Field) (hb : (boxRunesMap f.border).isSome) :
    (shift true (shift true f FieldShiftLeft).1 FieldShiftRight).1 = f
    ∧ (shift true (shift true f FieldShiftUp).1 FieldShiftDown).1 = f := by
  obtain ⟨r, hr⟩ := Option.isSome_iff_exists.mp hb
  constructor
  · rw [shift_state f FieldShiftLeft r hr]
    simp only [FieldShiftLeft, if_true, if_pos rfl]
    rw [shift_state { f with x := f.x - 1 } FieldShiftRight r hr]
    cases f
    simp [FieldShiftRight, FieldShiftLeft]
  · rw [shift_state f FieldShiftUp r hr]
    simp only [FieldShiftUp, FieldShiftLeft, FieldShiftRight]
    norm_num
    rw [shift_state { f with y := f.y - 1 } FieldShiftDown r hr]
    cases f
    simp [FieldShiftDown, FieldShiftUp, FieldShiftLeft, FieldShiftRight]

/-- Witness for C8 at a concrete field with a Unicode border. -/
theorem shift_roundtrip_witness :
    (shift true (shift true ⟨4, 7, 3, BoxStyleUnicode, ['o', 'k']⟩
        FieldShiftLeft).1 FieldShiftRight).1
      = { x := 4, y := 7, len := 3, border := BoxStyleUnicode, text := ['o', 'k'] }
    ∧ (shift true (shift true ⟨4, 7, 3, BoxStyleUnicode, ['o', 'k']⟩
        FieldShiftUp).1 FieldShiftDown).1
      = { x := 4, y := 7, len := 3, border := BoxStyleUnicode, text := ['o', 'k'] } :=
  shift_roundtrip
    { x := 4, y := 7, len := 3, border := BoxStyleUnicode, text := ['o', 'k'] }
    (by decide)

/-- Claim C10: on an initialized backend, `Shift` with a direction value outside
the four constants leaves the field entirely unchanged (row and column
included), while still erasing the border (Clear glyphs), redrawing it with
the original style and rewriting the stored text at the unchanged
position. -/
theorem shift_unknown_dir (f : Field) (dir : Nat) (r : BoxRunes)
    (hd : 4 ≤ dir) (hr : boxRunesMap f.border = some r) :
    (shift true f dir).1 = f
    ∧ (shift true f dir).2
      = drawBoxWrites f.x f.y f.len ⟨' ', ' ', ' ', ' ', ' ', ' '⟩
        ++ drawBoxWrites f.x f.y f.len r
        ++ updateWrites f.x f.y f.text := by
  have h0 : dir ≠ FieldShiftLeft := by simp only [FieldShiftLeft]; omega
  have h1 : dir ≠ FieldShiftRight := by simp only [FieldShiftRight]; omega
  have h2 : dir ≠ FieldShiftUp := by simp only [FieldShiftUp]; omega
  have h3 : dir ≠ FieldShiftDown := by simp only [FieldShiftDown]; omega
  simp only [shift, update, drawBox, boxRunesMap_clear, Bool.not_true,
    Bool.false_eq_true, if_false, h0, h1, h2, h3, if_neg]
  simp_all

/-- Witness for C10 at direction value 9. -/
theorem shift_unknown_dir_witness :
    (shift true { x := 1, y := 2, len := 2, border := BoxStyleASCII,
                  text := ['h', 'i'] } 9).1
      = { x := 1, y := 2, len := 2, border := BoxStyleASCII, text := ['h', 'i'] }
    ∧ (shift true { x := 1, y := 2, len := 2, border := BoxStyleASCII,
                    text := ['h', 'i'] } 9).2
      = drawBoxWrites 1 2 2 ⟨' ', ' ', ' ', ' ', ' ', ' '⟩
        ++ drawBoxWrites 1 2 2 ⟨'+', '+', '+', '+', '-', '|'⟩
        ++ updateWrites 1 2 ['h', 'i'] :=
  shift_unknown_dir
    { x := 1, y := 2, len := 2, border := BoxStyleASCII, text := ['h', 'i'] }
    9 ⟨'+', '+', '+', '+', '-', '|'⟩ (by omega) rfl

/-- Claim C7: with the backend initialized and a recognized style, the cells
`DrawBox` writes are exactly: the four corner glyphs at `(column-1, row-1)`,
`(column+width+1, row-1)`, `(column-1, row+1)`, `(column+width+1, row+1)`,
the vertical-edge glyph at `(column-1, row)` and `(column+width+1, row)`,
and the horizontal-edge glyph at `(column+i, row-1)` and `(column+i, row+1)`
for every `i` from 0 to `width` inclusive. -/
theorem drawBox_cells (f : Field) (b : Nat) (r : BoxRunes)
    (hr : boxRunesMap b = some r) (w : Write) :
    w ∈ (drawBox true f b).2.2
      ↔ (w = (f.x - 1, f.y - 1, r.r0) ∨ w = (f.x + f.len + 1, f.y - 1, r.r1)
        ∨ w = (f.x - 1, f.y + 1, r.r2) ∨ w = (f.x + f.len + 1, f.y + 1, r.r3)
        ∨ w = (f.x - 1, f.y, r.r5) ∨ w = (f.x + f.len + 1, f.y, r.r5)
        ∨ (∃ i : Int, 0 ≤ i ∧ i ≤ f.len
            ∧ (w = (f.x + i, f.y - 1, r.r4) ∨ w = (f.x + i, f.y + 1, r.r4)))) := by
  have hw : (drawBox true f b).2.2 = drawBoxWrites f.x f.y f.len r := by
    simp [drawBox, hr]
  rw [hw]
  unfold drawBoxWrites
  simp only [List.mem_append, List.mem_cons, List.not_mem_nil, or_false,
    List.mem_flatMap, List.mem_range]
  have hsweep : (∃ j : Nat, j < (f.len + 1).toNat
        ∧ (w = (f.x + (j : Int), f.y - 1, r.r4) ∨ w = (f.x + (j : Int), f.y + 1, r.r4)))
      ↔ (∃ i : Int, 0 ≤ i ∧ i ≤ f.len
        ∧ (w = (f.x + i, f.y - 1, r.r4) ∨ w = (f.x + i, f.y + 1, r.r4))) := by
    constructor
    · rintro ⟨j, hj, hw2⟩
      exact ⟨(j : Int), by omega, by omega, hw2⟩
    · rintro ⟨i, hi0, hil, hw2⟩
      refine ⟨i.toNat, by omega, ?_⟩
      rwa [Int.toNat_of_nonneg hi0]
  rw [hsweep]
  simp only [or_assoc]

/-- Witness for C7: the top-left ASCII corner lands at `(-1, -1)` for a
field anchored at the origin. -/
theorem drawBox_cells_witness :
    ((-1 : Int), (-1 : Int), '+')
      ∈ (drawBox true { x := 0, y := 0, len := 2, border := boxStyleClear,
                        text := [] } BoxStyleASCII).2.2 :=
  (drawBox_cells
    { x := 0, y := 0, len := 2, border := boxStyleClear, text := [] }
    BoxStyleASCII ⟨'+', '+', '+', '+', '-', '|'⟩ rfl
    ((-1 : Int), (-1 : Int), '+')).mpr (Or.inl (by decide))

end Termfields
